import Mathlib

/-!
A verification development for the CarScraper backend (Python/FastAPI).
The Python sources under `backend/` are shallowly embedded: pure functions
become Lean functions over `List Char` / `ℕ` / `ℚ`; Python `float` money
arithmetic is modelled as exact rational arithmetic; database tables are
modelled as lists of row records and fallible commits as `Except`; `datetime`
timestamps are modelled as abstract `ℕ` instants.
-/

namespace CarScraper

/-! ## Python string primitives over `List Char`

Python `str` values are modelled as `List Char`.  The helpers below embed the
string operations the scrapers use (`str.lower`, `str.strip`, `str.replace`,
the `in` substring test), restricted to the ASCII text they are applied to.
-/

/-- Python `str.lower` on one character (ASCII case folding). -/
def lowerChar (c : Char) : Char :=
  if 'A' ≤ c ∧ c ≤ 'Z' then Char.ofNat (c.toNat + 32) else c

/-- Python `str.lower`. -/
def toLowerL (l : List Char) : List Char := l.map lowerChar

/-- Whitespace characters recognised by Python `str.strip` / `str.split`. -/
def isWs (c : Char) : Bool :=
  c = ' ' ∨ c = '\t' ∨ c = '\n' ∨ c = '\r' ∨ c.toNat = 11 ∨ c.toNat = 12

/-- Python `str.strip()`. -/
def trimL (l : List Char) : List Char :=
  ((l.dropWhile isWs).reverse.dropWhile isWs).reverse

/-- Python `needle in hay` substring test. -/
def containsSub (needle hay : List Char) : Bool := decide (needle <:+: hay)

/-- Fuelled worker for `replaceL`; the fuel is the length of the subject, which
bounds the number of recursion steps. -/
def replaceAux (pat : List Char) : ℕ → List Char → List Char
  | 0, l => l
  | _ + 1, [] => []
  | fuel + 1, c :: rest =>
    if pat ≠ [] ∧ pat.isPrefixOf (c :: rest) then
      replaceAux pat fuel ((c :: rest).drop pat.length)
    else
      c :: replaceAux pat fuel rest

/-- Python `subject.replace(pat, "")`: delete every (leftmost, non-overlapping)
occurrence of `pat`. -/
def replaceL (l pat : List Char) : List Char := replaceAux pat l.length l

/-- Numeric value of a list of decimal digit characters (empty list ↦ 0). -/
def digitsToNat (l : List Char) : ℕ :=
  l.foldl (fun acc c => acc * 10 + (c.toNat - 48)) 0

/-! ## Price parsing (`bat.py _parse_price`, `carsandbids.py _parse_price`)

Both scrapers strip currency decorations, search the first run matching the
regex `[\d.]+` and feed it to Python `float`, returning `None` on
`ValueError`.
-/

/-- A character matched by the `[\d.]+` price regex. -/
def digitOrDot (c : Char) : Bool := c.isDigit || c = '.'

/-- First maximal run matching `[\d.]+` (the head of `re.findall`). -/
def firstRun (l : List Char) : Option (List Char) :=
  let l2 := l.dropWhile fun c => !digitOrDot c
  if l2.isEmpty then none else some (l2.takeWhile digitOrDot)

/-- Python `float` applied to a `[\d.]+` token: fails (`ValueError → None`)
when there is more than one dot or no digit at all, otherwise reads the
decimal value. -/
def floatOfRun (run : List Char) : Option ℚ :=
  if run.count '.' ≤ 1 ∧ run.any Char.isDigit then
    let intPart := run.takeWhile Char.isDigit
    let frac := (run.dropWhile Char.isDigit).drop 1
    some (mkRat (digitsToNat (intPart ++ frac)) (10 ^ frac.length))
  else none

/-- Embeds `BaTScraper._parse_price`: strip `","`, `"$"`, `"USD"`, whitespace, then
`float` of the first `[\d.]+` run. -/
def batParsePrice (text : List Char) : Option ℚ :=
  let t := trimL (replaceL (replaceL (replaceL text ",".toList) "$".toList) "USD".toList)
  match firstRun t with
  | some r => floatOfRun r
  | none => none

/-- Embeds `CarsAndBidsScraper._parse_price`: empty input short-circuits to `None`;
otherwise strip `","`, `"$"`, whitespace, then `float` of the first
`[\d.]+` run. -/
def cnbParsePrice (text : List Char) : Option ℚ :=
  if text.isEmpty then none
  else
    let t := trimL (replaceL (replaceL text ",".toList) "$".toList)
    match firstRun t with
    | some r => floatOfRun r
    | none => none

/-! ## Title parsing (`_parse_title`, identical in `bat.py` and
`carsandbids.py`)

`re.search(r'\b(19\d{2}|20\d{2})\b', title)` finds the leftmost 4-digit year
token `19xx`/`20xx` delimited by word boundaries (`\w` taken as
`[A-Za-z0-9_]` for the ASCII titles in scope); the text after it is split
into a make token and a model remainder.
-/

/-- Python regex word character (ASCII `\w`). -/
def isWordChar (c : Char) : Bool := c.isAlphanum || c = '_'

/-- Boundary test for `\b` (an `Option.all isWordChar` check): `none`
stands for the start / end of the string. -/
def boundaryOk : Option Char → Bool
  | none => true
  | some c => !isWordChar c

/-- Match of `\b(19\d{2}|20\d{2})\b` anchored at the current position, whose
first character is `c1` and whose remaining text is `rest`; `prev` is the
character just before the position (`none` at the start of the string). -/
def yearHere (prev : Option Char) (c1 : Char) (rest : List Char) :
    Option (ℕ × List Char) :=
  match rest with
  | c2 :: c3 :: c4 :: rest2 =>
    if boundaryOk prev && ((c1 = '1' && c2 = '9') || (c1 = '2' && c2 = '0')) &&
        c3.isDigit && c4.isDigit && boundaryOk rest2.head? then
      some (digitsToNat [c1, c2, c3, c4], rest2)
    else none
  | _ => none

/-- Leftmost match of `\b(19\d{2}|20\d{2})\b`: returns the year value and the
text after the matched token. -/
def scanYear : Option Char → List Char → Option (ℕ × List Char)
  | _, [] => none
  | prev, c1 :: rest =>
    match yearHere prev c1 rest with
    | some r => some r
    | none => scanYear (some c1) rest

/-- Embeds `_parse_title`: returns `(year?, make?, model?)` as in the Python code —
no year token means `(None, None, title)`; otherwise the text after the year
is stripped and split once on whitespace into make and model. -/
def parseTitle (title : List Char) : Option ℕ × Option (List Char) × Option (List Char) :=
  match scanYear none title with
  | none => (none, none, some title)
  | some (y, after) =>
    let a := trimL after
    if a.isEmpty then (some y, none, none)
    else
      let tok := a.takeWhile fun c => !isWs c
      let rem := (a.dropWhile fun c => !isWs c).dropWhile isWs
      if rem.isEmpty then (some y, some tok, none)
      else (some y, some tok, some (trimL rem))

/-! ## Normalized auction listing records

The dict returned by `BaTScraper._parse_listing_card` and
`CarsAndBidsScraper._parse_api_listing`.  The `auction_end_date` key (a
passthrough / date-parse field unrelated to the price/sold invariants) is
not modelled.
-/

structure AuctionRecord where
  year : Option ℕ
  make : Option (List Char)
  model : Option (List Char)
  sold_price : Option ℚ
  starting_bid : Option ℚ
  bid_count : Option ℕ
  url : List Char
  image_url : Option (List Char)
  is_sold : Bool
  description : List Char
deriving DecidableEq, Repr

/-! ## Card parsing: `BaTScraper._parse_listing_card`

The card input is modelled by the texts of the DOM elements the parser
reads: the resolved title text, the optional `.bid-formatted` price text,
the optional `.bid-label` text, the optional `.item-results` text, the
no-reserve tag, the resolved href and the optional image URL.  (The code
drops the whole card when no title element exists; that early-`None` path
carries no listing and is outside this record model.)
-/

structure BatCard where
  title : List Char
  priceText : Option (List Char)
  bidLabel : Option (List Char)
  resultText : Option (List Char)
  noReserve : Bool
  url : List Char
  imageUrl : Option (List Char)
deriving DecidableEq, Repr

/-- The sold flag of `_parse_listing_card` (bat.py lines 170-174):
`is_sold = False`; set to `True` if the result text contains `"sold"` but not
`"not sold"`, `elif` the bid label contains `"sold"`. -/
def batSoldFlag (soldText bidLabel : List Char) : Bool :=
  if containsSub "sold".toList soldText && !containsSub "not sold".toList soldText then true
  else if containsSub "sold".toList bidLabel then true
  else false

/-- The parsed price of a BaT card: `_parse_price` of the `.bid-formatted`
text when that element exists, else `None`. -/
def batCardPrice (c : BatCard) : Option ℚ :=
  match c.priceText with
  | some t => batParsePrice t
  | none => none

/-- Embeds `BaTScraper._parse_listing_card` on a card that has a title element. -/
def batParseCard (c : BatCard) : AuctionRecord :=
  let url := if !c.url.isEmpty && !("http".toList.isPrefixOf c.url) then
      "https://bringatrailer.com".toList ++ c.url
    else c.url
  let ymm := parseTitle c.title
  let price := batCardPrice c
  let bidLabel := toLowerL (c.bidLabel.getD [])
  let soldText := toLowerL (c.resultText.getD [])
  let isSold := batSoldFlag soldText bidLabel
  { year := ymm.1
    make := ymm.2.1
    model := ymm.2.2
    sold_price := if isSold then price else none
    starting_bid := if isSold then none else price
    bid_count := none
    url := url
    image_url := c.imageUrl
    is_sold := isSold
    description := c.title ++ (if c.noReserve then " [No Reserve]".toList else []) }

/-! ## Item parsing: `CarsAndBidsScraper._parse_api_listing`

API items are dicts; the values the parser reads are modelled by `CnbItem`.
Python truthiness-based `a or b or c` field fallbacks are modelled by
`pyOr` over `PyVal` (a JSON string or number).
-/

inductive PyVal where
  | str (s : List Char)
  | num (q : ℚ)
deriving DecidableEq, Repr

/-- Python truthiness of an optional string-or-number value. -/
def pyTruthy : Option PyVal → Bool
  | none => false
  | some (.str s) => !s.isEmpty
  | some (.num q) => decide (q ≠ 0)

/-- Python `a or b` on optional values. -/
def pyOr (a b : Option PyVal) : Option PyVal := if pyTruthy a then a else b

/-- Python `a or b` where `a` is a parsed number and `b` a dict field
(`year or item.get("year")`). -/
def pyOrNat (a b : Option ℕ) : Option ℕ :=
  match a with
  | some n => if n ≠ 0 then some n else b
  | none => b

/-- Python `a or b` on optional strings (`make or item.get("make")`). -/
def pyOrStr (a b : Option (List Char)) : Option (List Char) :=
  match a with
  | some s => if !s.isEmpty then some s else b
  | none => b

/-- First maximal run of decimal digits (the head of `re.findall(r"\d+")`). -/
def firstDigitRun (l : List Char) : Option (List Char) :=
  let l2 := l.dropWhile fun c => !c.isDigit
  if l2.isEmpty then none else some (l2.takeWhile Char.isDigit)

structure CnbItem where
  title : List Char
  status : List Char
  sold_price : Option PyVal
  price : Option PyVal
  currentBid : Option PyVal
  yearField : Option ℕ
  makeField : Option (List Char)
  modelField : Option (List Char)
  bidCountRaw : Option PyVal
  urlField : List Char
  image : Option (List Char)
deriving DecidableEq, Repr

/-- The `bid_count` extraction: strings are searched for their first digit
run, numbers pass through (as a count). -/
def cnbBidCount : Option PyVal → Option ℕ
  | some (.str s) =>
    match firstDigitRun s with
    | some r => some (digitsToNat r)
    | none => none
  | some (.num q) => some q.num.toNat
  | none => none

/-- Embeds `CarsAndBidsScraper._parse_api_listing` (the non-exception path). -/
def cnbParseApiListing (it : CnbItem) : AuctionRecord :=
  let ymm := parseTitle it.title
  let isSold0 : Bool :=
    toLowerL it.status = "sold".toList || toLowerL it.status = "completed".toList
  let raw := pyOr (pyOr it.sold_price it.price) it.currentBid
  let isSold : Bool :=
    match raw with
    | some (.str s) =>
      if containsSub "not sold".toList (toLowerL s) ||
          containsSub "bid to".toList (toLowerL s) then false
      else isSold0
    | _ => isSold0
  let soldPrice : Option ℚ :=
    match raw with
    | some (.str s) => cnbParsePrice s
    | some (.num q) => some q
    | none => none
  let url := if !it.urlField.isEmpty && !("http".toList.isPrefixOf it.urlField) then
      "https://carsandbids.com".toList ++ it.urlField
    else it.urlField
  { year := pyOrNat ymm.1 it.yearField
    make := pyOrStr ymm.2.1 it.makeField
    model := pyOrStr ymm.2.2 it.modelField
    sold_price := if isSold then soldPrice else none
    starting_bid := if isSold then none else soldPrice
    bid_count := cnbBidCount it.bidCountRaw
    url := url
    image_url := it.image
    is_sold := isSold
    description := it.title }

/-- The raw price a Cars & Bids item carries after the `or`-fallback chain
and string parsing (the value that lands in whichever of
`sold_price`/`starting_bid` is selected by `is_sold`). -/
def cnbRawPrice (it : CnbItem) : Option ℚ :=
  match pyOr (pyOr it.sold_price it.price) it.currentBid with
  | some (.str s) => cnbParsePrice s
  | some (.num q) => some q
  | none => none

/-! ## Job rows and `crud.update_job_status`

A `ScrapeJob` row (`models.py`), restricted to the columns
`update_job_status` touches.  Timestamps (`datetime.now(timezone.utc)`) are
modelled as abstract `ℕ` instants passed in as `now`. -/

structure JobState where
  status : String
  progress : ℕ
  total_results : ℕ
  error_message : Option String
  completed_at : Option ℕ
deriving DecidableEq, Repr

/-- Embeds `crud.update_job_status` (crud.py lines 57-77) applied to an existing job
row: always overwrite `status`; overwrite `progress`/`total_results`/
`error_message` only when the optional argument is given; stamp
`completed_at := now` whenever `status` is `"completed"` or `"failed"`.
(The `db.get` miss guard at lines 65-67 makes it a no-op for an absent job
id; the model acts on the present row.) -/
def updateJobStatus (job : JobState) (status : String) (progress : Option ℕ)
    (totalResults : Option ℕ) (errorMessage : Option String) (now : ℕ) : JobState :=
  { status := status
    progress := progress.getD job.progress
    total_results := totalResults.getD job.total_results
    error_message := match errorMessage with
      | some e => some e
      | none => job.error_message
    completed_at := if status = "completed" ∨ status = "failed" then some now
      else job.completed_at }

/-- One invocation of `update_job_status` (its argument tuple). -/
structure JobCall where
  status : String
  progress : Option ℕ
  total_results : Option ℕ
  error_message : Option String
  now : ℕ
deriving DecidableEq, Repr

def applyCall (s : JobState) (c : JobCall) : JobState :=
  updateJobStatus s c.status c.progress c.total_results c.error_message c.now

/-- A sequence of `update_job_status` calls applied in order. -/
def applyCalls (s : JobState) (cs : List JobCall) : JobState :=
  cs.foldl applyCall s

/-- A terminal job status (`status in ("completed", "failed")`). -/
def isTerminal (st : String) : Bool := st = "completed" || st = "failed"

/-! ## Job execution: `job_manager._run_scrape_job`

Per-platform outcomes of the loop body (lines 96-143): a platform is skipped
(unknown key, unimplemented scraper, or not seeded in the DB), its adapter
raises, or its adapter returns listings after reporting progress.  Listing
inserts go to the listings table and are represented only by their count. -/

inductive POutcome where
  /-- `continue`d: unknown platform key, `scraper_class is None`, or platform
  row absent. -/
  | skip
  /-- The adapter call (or the listing insert) raised; the `except` at lines
  142-143 logs and moves on. -/
  | fail
  /-- The adapter returned `listings` records, after its `on_progress`
  callback reported the given raw percentage values. -/
  | success (progressWrites : List ℕ) (listings : ℕ)
deriving DecidableEq, Repr

/-- The `on_progress` closure writes `min(pct, 95)` as a `"running"`
progress update for each reported raw percentage. -/
def applyProgressWrites (t : ℕ) (s : JobState) (ws : List ℕ) : JobState :=
  ws.foldl (fun st w => updateJobStatus st "running" (some (min w 95)) none none t) s

/-- The platform loop: threads the job row and the `total_listings`
accumulator through the outcomes. -/
def runLoop (t : ℕ) : List POutcome → JobState × ℕ → JobState × ℕ
  | [], acc => acc
  | .skip :: rest, acc => runLoop t rest acc
  | .fail :: rest, acc => runLoop t rest acc
  | .success ws cnt :: rest, (s, total) =>
    runLoop t rest (applyProgressWrites t s ws, total + cnt)

/-- Total of the successful adapters' listing counts
(`total_listings += len(listings)`). -/
def scrapeTotal (outcomes : List POutcome) : ℕ :=
  (outcomes.map fun o => match o with
    | .success _ cnt => cnt
    | _ => 0).sum

/-- Embeds `_run_scrape_job` in its non-fatal path (no exception escapes the
per-platform loop): set `"running"`/`progress=0`, run the loop, then set
`"completed"`/`progress=100`/`total_results=total`.  `t0` is the start
instant and `t1` the finalization instant. -/
def runScrapeJob (outcomes : List POutcome) (s : JobState) (t0 t1 : ℕ) : JobState :=
  let s1 := updateJobStatus s "running" (some 0) none none t0
  let r := runLoop t0 outcomes (s1, 0)
  updateJobStatus r.1 "completed" (some 100) (some r.2) none t1

/-! ## Progress percentages (`job_manager.on_progress`)

`base_progress = int((idx / platform_count) * 100)`,
`range_progress = int(100 / platform_count)`,
`pct = base_progress + int((page / max_pages) * range_progress)`, written as
`min(pct, 95)`.  The Python float arithmetic is modelled exactly as rational
arithmetic: `int(truncation)` of the non-negative ratios is `ℕ` floor
division. -/

def progressPct (n idx maxp page : ℕ) : ℕ :=
  min (idx * 100 / n + page * (100 / n) / maxp) 95

/-- One platform's slice of a job: its index `idx` in the requested platform
list of length `n`, the adapter's `max_pages`, and the `page` values its
`on_progress` calls report, in call order. -/
structure PlatformRun where
  idx : ℕ
  maxp : ℕ
  pages : List ℕ
deriving DecidableEq, Repr

/-- The progress values a platform's callbacks write. -/
def platformWrites (n : ℕ) (r : PlatformRun) : List ℕ :=
  r.pages.map (progressPct n r.idx r.maxp)

/-- The full sequence of progress values written over one job's lifetime:
the reset to 0 at job start, each surviving platform's callback writes in
platform order, and the terminal 100. -/
def jobProgressWrites (n : ℕ) (runs : List PlatformRun) : List ℕ :=
  0 :: (runs.flatMap (platformWrites n) ++ [100])

/-! ## Search cache (`crud.get_cached_job`, `crud.set_cache`,
`models.SearchCache`) -/

inductive DbError where
  /-- SQLAlchemy `MultipleResultsFound`, raised by `scalar_one_or_none` when
  the query matched more than one row. -/
  | multipleResultsFound
  /-- `IntegrityError` on commit: the `search_cache.cache_key` column is
  declared `unique=True` (models.py line 97). -/
  | integrityError
deriving DecidableEq, Repr

/-- A `search_cache` row (id and `created_at` omitted). -/
structure CacheRow where
  cache_key : String
  job_id : ℕ
  expires_at : ℕ
deriving DecidableEq, Repr

/-- Default `settings.CACHE_TTL_HOURS` (config.py); time is measured in
hours so that `timedelta(hours=ttl)` is plain addition. -/
def CACHE_TTL_HOURS : ℕ := 6

/-- The rows matched by the `get_cached_job` query:
`cache_key == key AND expires_at > now`. -/
def cacheMatches (rows : List CacheRow) (key : String) (now : ℕ) : List CacheRow :=
  rows.filter fun r => r.cache_key = key ∧ now < r.expires_at

/-- Embeds `crud.get_cached_job`: `scalar_one_or_none()` over the filtered rows —
`None` for no row, the single row's `job_id` for one row,
`MultipleResultsFound` for several. -/
def getCachedJob (rows : List CacheRow) (key : String) (now : ℕ) :
    Except DbError (Option ℕ) :=
  match cacheMatches rows key now with
  | [] => .ok none
  | [r] => .ok (some r.job_id)
  | _ => .error .multipleResultsFound

/-- Committing the cache table enforces the `unique=True` declaration on
`cache_key`: the commit succeeds iff all keys are distinct. -/
def cacheCommit (rows : List CacheRow) : Except DbError (List CacheRow) :=
  if (rows.map CacheRow.cache_key).Nodup then .ok rows else .error .integrityError

/-- Embeds `crud.set_cache`: unconditionally `db.add` a fresh row with
`expires_at = now + CACHE_TTL_HOURS`, then commit. -/
def setCache (rows : List CacheRow) (key : String) (jobId now : ℕ) :
    Except DbError (List CacheRow) :=
  cacheCommit (rows ++ [⟨key, jobId, now + CACHE_TTL_HOURS⟩])

/-! ## Aggregation engine (`services/aggregator.py`)

Python `float` arithmetic is modelled as exact `ℚ` arithmetic; Python
`round(x, n)` is round-half-to-even at the `n`-th decimal. -/

/-- Round-half-to-even to an integer. -/
def halfEven (x : ℚ) : ℤ :=
  if x - ⌊x⌋ < 1/2 then ⌊x⌋
  else if 1/2 < x - ⌊x⌋ then ⌊x⌋ + 1
  else if Even ⌊x⌋ then ⌊x⌋ else ⌊x⌋ + 1

/-- Python `round(x, n)`. -/
def pyRound (x : ℚ) (n : ℕ) : ℚ := (halfEven (x * 10 ^ n) : ℚ) / 10 ^ n

/-- Python `sorted` on numbers. -/
def qSort (l : List ℚ) : List ℚ := l.mergeSort fun a b => decide (a ≤ b)

/-- Embeds `aggregator._median`: middle element for odd length, rounded average of
the two middle elements for even length. -/
def median (values : List ℚ) : ℚ :=
  let s := qSort values
  let n := s.length
  if n % 2 = 1 then s.getD (n / 2) 0
  else pyRound ((s.getD (n / 2 - 1) 0 + s.getD (n / 2) 0) / 2) 2

/-- Python `min` over a nonempty list (`none` marks the empty case where the
statistic is omitted). -/
def qMin : List ℚ → Option ℚ
  | [] => none
  | x :: xs => some (xs.foldl min x)

/-- Python `max` over a nonempty list. -/
def qMax : List ℚ → Option ℚ
  | [] => none
  | x :: xs => some (xs.foldl max x)

/-- An `AuctionListing` row as read by `compute_auction_stats` (the columns
it does not read are omitted). -/
structure AuctionListingRow where
  is_sold : Bool
  sold_price : Option ℚ
  starting_bid : Option ℚ
  bid_count : Option ℚ
  auction_days : Option ℚ
deriving DecidableEq, Repr

/-- Python truthiness of `l.sold_price` (`None` and `0.0` are falsy). -/
def qTruthy : Option ℚ → Bool
  | none => false
  | some q => decide (q ≠ 0)

/-- Filter `sold = [l for l in listings if l.is_sold and l.sold_price]`. -/
def soldRows (ls : List AuctionListingRow) : List AuctionListingRow :=
  ls.filter fun l => l.is_sold && qTruthy l.sold_price

/-- Filter `unsold = [l for l in listings if not l.is_sold]`. -/
def unsoldRows (ls : List AuctionListingRow) : List AuctionListingRow :=
  ls.filter fun l => !l.is_sold

/-- The stats dict of `compute_auction_stats`, restricted to the always-set
keys and the sold-price block; the analogous starting-bid / bid-count /
auction-days blocks are not modelled. -/
structure AuctionStats where
  total_listings : ℕ
  total_sold : ℕ
  total_unsold : ℕ
  sell_through_rate : ℚ
  mean_sold_price : Option ℚ
  median_sold_price : Option ℚ
  min_sold_price : Option ℚ
  max_sold_price : Option ℚ
deriving DecidableEq, Repr

/-- Embeds `aggregator.compute_auction_stats`; `none` is the `{}` returned for an
empty listing set. -/
def computeAuctionStats (ls : List AuctionListingRow) : Option AuctionStats :=
  if ls.isEmpty then none
  else
    let sold := soldRows ls
    let soldPrices := sold.filterMap AuctionListingRow.sold_price
    some {
      total_listings := ls.length
      total_sold := sold.length
      total_unsold := (unsoldRows ls).length
      sell_through_rate := pyRound ((sold.length : ℚ) / ls.length * 100) 1
      mean_sold_price :=
        if soldPrices.isEmpty then none
        else some (pyRound (soldPrices.sum / soldPrices.length) 2)
      median_sold_price :=
        if soldPrices.isEmpty then none else some (median soldPrices)
      min_sold_price := qMin soldPrices
      max_sold_price := qMax soldPrices }

/-- A `UsedCarListing` row as read by `compute_comparison_stats` (other
columns omitted). -/
structure UsedCarRow where
  list_price : Option ℚ
  days_on_market : Option ℚ
deriving DecidableEq, Repr

/-- The `"usa"` block of the comparison result. -/
structure UsaBlock where
  count : ℕ
  mean_price : Option ℚ
  median_price : Option ℚ
  min_price : Option ℚ
  max_price : Option ℚ
  mean_days_on_market : Option ℚ
  currency : String
deriving DecidableEq, Repr

/-- The `"germany"` block of the comparison result. -/
structure DeBlock where
  count : ℕ
  mean_price_eur : Option ℚ
  median_price_eur : Option ℚ
  min_price_eur : Option ℚ
  max_price_eur : Option ℚ
  mean_price_usd : Option ℚ
  median_price_usd : Option ℚ
  mean_days_on_market : Option ℚ
  currency : String
deriving DecidableEq, Repr

structure ComparisonStats where
  usa : UsaBlock
  germany : DeBlock
  price_delta_usd : Option ℚ
  price_delta_pct : Option ℚ
  arbitrage_direction : Option String
  eur_usd_rate : ℚ
deriving DecidableEq, Repr

/-- Field `result["usa"]["mean_price"]`: rounded mean of the non-null USA list
prices, `None` when there are none. -/
def usaMeanPrice (usaListings : List UsedCarRow) : Option ℚ :=
  let ps := usaListings.filterMap UsedCarRow.list_price
  if ps.isEmpty then none else some (pyRound (ps.sum / ps.length) 2)

/-- Field `result["germany"]["mean_price_usd"]`: rounded rate-converted mean of
the non-null Germany list prices, `None` when there are none. -/
def deMeanPriceUsd (germanyListings : List UsedCarRow) (rate : ℚ) : Option ℚ :=
  let ps := germanyListings.filterMap UsedCarRow.list_price
  if ps.isEmpty then none else some (pyRound (ps.sum / ps.length * rate) 2)

/-- Embeds `aggregator.compute_comparison_stats`. -/
def computeComparisonStats (usaListings germanyListings : List UsedCarRow)
    (rate : ℚ) : ComparisonStats :=
  let usaPrices := usaListings.filterMap UsedCarRow.list_price
  let dePrices := germanyListings.filterMap UsedCarRow.list_price
  let usaDays := usaListings.filterMap UsedCarRow.days_on_market
  let deDays := germanyListings.filterMap UsedCarRow.days_on_market
  let usaMean : Option ℚ := usaMeanPrice usaListings
  let deMeanUsd : Option ℚ := deMeanPriceUsd germanyListings rate
  let usaBlock : UsaBlock := {
    count := usaListings.length
    mean_price := usaMean
    median_price := if usaPrices.isEmpty then none else some (median usaPrices)
    min_price := qMin usaPrices
    max_price := qMax usaPrices
    mean_days_on_market :=
      if usaDays.isEmpty then none
      else some (pyRound (usaDays.sum / usaDays.length) 1)
    currency := "USD" }
  let deBlock : DeBlock := {
    count := germanyListings.length
    mean_price_eur :=
      if dePrices.isEmpty then none
      else some (pyRound (dePrices.sum / dePrices.length) 2)
    median_price_eur := if dePrices.isEmpty then none else some (median dePrices)
    min_price_eur := qMin dePrices
    max_price_eur := qMax dePrices
    mean_price_usd := deMeanUsd
    median_price_usd :=
      if dePrices.isEmpty then none else some (pyRound (median dePrices * rate) 2)
    mean_days_on_market :=
      if deDays.isEmpty then none
      else some (pyRound (deDays.sum / deDays.length) 1)
    currency := "EUR" }
  match usaMean, deMeanUsd with
  | some u, some g =>
    let delta := pyRound (u - g) 2
    let deltaPct : ℚ := if g ≠ 0 then pyRound (delta / g * 100) 1 else 0
    { usa := usaBlock
      germany := deBlock
      price_delta_usd := some delta
      price_delta_pct := some deltaPct
      arbitrage_direction := some (if 0 < delta then "Buy in Germany" else "Buy in USA")
      eur_usd_rate := rate }
  | _, _ =>
    { usa := usaBlock
      germany := deBlock
      price_delta_usd := none
      price_delta_pct := none
      arbitrage_direction := none
      eur_usd_rate := rate }

/-! ## Cache key derivation (`crud.build_cache_key`)

`json.dumps({"params": search_params, "platforms": sorted(platforms)},
sort_keys=True)` followed by `hashlib.sha256(...).hexdigest()`.  The JSON
value model, the serializer (default separators, `sort_keys=True`,
`ensure_ascii=True`) and SHA-256 are embedded below. -/

inductive Json where
  | null
  | bool (b : Bool)
  | num (n : ℤ)
  | str (s : String)
  | arr (xs : List Json)
  | obj (kvs : List (String × Json))

/-- Insert a key/value pair into a key-sorted pair list. -/
def insertPair (p : String × Json) : List (String × Json) → List (String × Json)
  | [] => [p]
  | q :: rest => if p.1 ≤ q.1 then p :: q :: rest else q :: insertPair p rest

/-- Sort an object's pairs by key (`sort_keys=True`; Python compares
strings by code point, as the `String` linear order does). -/
def sortPairs : List (String × Json) → List (String × Json)
  | [] => []
  | p :: rest => insertPair p (sortPairs rest)

theorem mem_insertPair {x p : String × Json} {l : List (String × Json)}
    (hx : x ∈ insertPair p l) : x = p ∨ x ∈ l := by
  induction l with
  | nil => simpa [insertPair] using hx
  | cons q rest ih =>
    by_cases hle : p.1 ≤ q.1
    · simpa [insertPair, hle] using hx
    · simp only [insertPair, if_neg hle, List.mem_cons] at hx
      rcases hx with h | h
      · exact Or.inr (by simp [h])
      · rcases ih h with h2 | h2
        · exact Or.inl h2
        · exact Or.inr (List.mem_cons_of_mem _ h2)

theorem mem_sortPairs {x : String × Json} {l : List (String × Json)}
    (hx : x ∈ sortPairs l) : x ∈ l := by
  induction l with
  | nil => simp [sortPairs] at hx
  | cons p rest ih =>
    rcases mem_insertPair (l := sortPairs rest) (by simpa [sortPairs] using hx) with h | h
    · simp [h]
    · exact List.mem_cons_of_mem _ (ih h)

/-- A lowercase hexadecimal digit. -/
def hexDigit (n : ℕ) : Char :=
  if n < 10 then Char.ofNat (48 + n) else Char.ofNat (87 + n)

/-- Four lowercase hex digits (for `\uXXXX` escapes and digest bytes). -/
def hex4 (n : ℕ) : List Char :=
  [hexDigit (n / 4096 % 16), hexDigit (n / 256 % 16), hexDigit (n / 16 % 16),
    hexDigit (n % 16)]

/-- The JSON escape of one character (`json.dumps` defaults: `ensure_ascii`
escapes control and non-ASCII characters, with surrogate pairs beyond the
BMP). -/
def escapeChar (c : Char) : List Char :=
  if c = '"' then ['\\', '"']
  else if c = '\\' then ['\\', '\\']
  else if c = '\n' then ['\\', 'n']
  else if c = '\t' then ['\\', 't']
  else if c = '\r' then ['\\', 'r']
  else if c.toNat = 8 then ['\\', 'b']
  else if c.toNat = 12 then ['\\', 'f']
  else if c.toNat < 32 ∨ 127 ≤ c.toNat then
    if c.toNat < 65536 then '\\' :: 'u' :: hex4 c.toNat
    else
      ('\\' :: 'u' :: hex4 (55296 + (c.toNat - 65536) / 1024)) ++
        ('\\' :: 'u' :: hex4 (56320 + (c.toNat - 65536) % 1024))
  else [c]

/-- A JSON string literal with quotes and escapes. -/
def quoteString (s : String) : String :=
  "\"" ++ String.mk (s.toList.flatMap escapeChar) ++ "\""

/-- Embeds `json.dumps` with `sort_keys=True` and the default separators
`", "` / `": "`: arrays keep their order, every object's keys are sorted. -/
def dumpJson : Json → String
  | .null => "null"
  | .bool b => cond b "true" "false"
  | .num n => toString n
  | .str s => quoteString s
  | .arr xs =>
    "[" ++ String.intercalate ", " (xs.attach.map fun x => dumpJson x.1) ++ "]"
  | .obj kvs =>
    "\x7b" ++
      String.intercalate ", "
        ((sortPairs kvs).attach.map fun p => quoteString p.1.1 ++ ": " ++ dumpJson p.1.2) ++
      "\x7d"
termination_by j => sizeOf j
decreasing_by
  · have := List.sizeOf_lt_of_mem x.2
    simp only [Json.arr.sizeOf_spec]
    omega
  · have h1 : p.1 ∈ kvs := mem_sortPairs p.2
    have h2 := List.sizeOf_lt_of_mem h1
    have h3 : sizeOf p.1.2 < sizeOf p.1 := by
      obtain ⟨a, b⟩ := p.1
      simp only [Prod.mk.sizeOf_spec]
      omega
    simp only [Json.obj.sizeOf_spec]
    omega

/-- UTF-8 encoding of one code point (`str.encode()`). -/
def utf8Char (n : ℕ) : List ℕ :=
  if n < 128 then [n]
  else if n < 2048 then [192 + n / 64, 128 + n % 64]
  else if n < 65536 then [224 + n / 4096, 128 + n / 64 % 64, 128 + n % 64]
  else [240 + n / 262144, 128 + n / 4096 % 64, 128 + n / 64 % 64, 128 + n % 64]

/-- UTF-8 bytes of a string (`str.encode()`). -/
def utf8Encode (s : String) : List ℕ :=
  s.toList.flatMap fun c => utf8Char c.toNat

/-! ### SHA-256 (`hashlib.sha256`), over byte lists with `ℕ` words mod 2³² -/

def add32 (a b : ℕ) : ℕ := (a + b) % 4294967296

def rotr (n x : ℕ) : ℕ := (x / 2 ^ n + x % 2 ^ n * 2 ^ (32 - n)) % 4294967296

def shaCh (x y z : ℕ) : ℕ := (x &&& y) ^^^ ((x ^^^ 4294967295) &&& z)

def shaMaj (x y z : ℕ) : ℕ := (x &&& y) ^^^ (x &&& z) ^^^ (y &&& z)

def bsig0 (x : ℕ) : ℕ := rotr 2 x ^^^ rotr 13 x ^^^ rotr 22 x

def bsig1 (x : ℕ) : ℕ := rotr 6 x ^^^ rotr 11 x ^^^ rotr 25 x

def ssig0 (x : ℕ) : ℕ := rotr 7 x ^^^ rotr 18 x ^^^ x / 8

def ssig1 (x : ℕ) : ℕ := rotr 17 x ^^^ rotr 19 x ^^^ x / 1024

def shaK : List ℕ := [
  1116352408, 1899447441, 3049323471, 3921009573,
  961987163, 1508970993, 2453635748, 2870763221,
  3624381080, 310598401, 607225278, 1426881987,
  1925078388, 2162078206, 2614888103, 3248222580,
  3835390401, 4022224774, 264347078, 604807628,
  770255983, 1249150122, 1555081692, 1996064986,
  2554220882, 2821834349, 2952996808, 3210313671,
  3336571891, 3584528711, 113926993, 338241895,
  666307205, 773529912, 1294757372, 1396182291,
  1695183700, 1986661051, 2177026350, 2456956037,
  2730485921, 2820302411, 3259730800, 3345764771,
  3516065817, 3600352804, 4094571909, 275423344,
  430227734, 506948616, 659060556, 883997877,
  958139571, 1322822218, 1537002063, 1747873779,
  1955562222, 2024104815, 2227730452, 2361852424,
  2428436474, 2756734187, 3204031479, 3329325298]

/-- Big-endian 64-bit length field of the padding. -/
def lengthBytes (n : ℕ) : List ℕ :=
  [n / 2 ^ 56 % 256, n / 2 ^ 48 % 256, n / 2 ^ 40 % 256, n / 2 ^ 32 % 256,
    n / 2 ^ 24 % 256, n / 2 ^ 16 % 256, n / 2 ^ 8 % 256, n % 256]

/-- SHA-256 padding: `0x80`, zeros to 56 mod 64, then the bit length. -/
def padMessage (msg : List ℕ) : List ℕ :=
  msg ++ 128 :: List.replicate ((64 - (msg.length + 9) % 64) % 64) 0 ++
    lengthBytes (8 * msg.length)

/-- Split into 64-byte blocks (the fuel bounds the recursion by the input
length, which strictly drops at every step). -/
def toBlocksAux : ℕ → List ℕ → List (List ℕ)
  | 0, _ => []
  | _ + 1, [] => []
  | fuel + 1, c :: rest => (c :: rest).take 64 :: toBlocksAux fuel ((c :: rest).drop 64)

def toBlocks (l : List ℕ) : List (List ℕ) := toBlocksAux l.length l

/-- Big-endian 32-bit words of a block. -/
def toWords : List ℕ → List ℕ
  | b0 :: b1 :: b2 :: b3 :: rest =>
    (b0 * 16777216 + b1 * 65536 + b2 * 256 + b3) :: toWords rest
  | _ => []

/-- Extend the 16-word schedule by `k` further words. -/
def extendW : ℕ → List ℕ → List ℕ
  | 0, ws => ws
  | k + 1, ws =>
    let t := ws.length
    extendW k (ws ++ [add32 (add32 (ssig1 (ws.getD (t - 2) 0)) (ws.getD (t - 7) 0))
      (add32 (ssig0 (ws.getD (t - 15) 0)) (ws.getD (t - 16) 0))])

structure Hash8 where
  a : ℕ
  b : ℕ
  c : ℕ
  d : ℕ
  e : ℕ
  f : ℕ
  g : ℕ
  h : ℕ
deriving DecidableEq, Repr

def shaStep (st : Hash8) (kw : ℕ × ℕ) : Hash8 :=
  let t1 := add32 st.h (add32 (bsig1 st.e) (add32 (shaCh st.e st.f st.g) (add32 kw.1 kw.2)))
  let t2 := add32 (bsig0 st.a) (shaMaj st.a st.b st.c)
  ⟨add32 t1 t2, st.a, st.b, st.c, add32 st.d t1, st.e, st.f, st.g⟩

def compressBlock (hs : Hash8) (block : List ℕ) : Hash8 :=
  let ws := extendW 48 (toWords block)
  let r := (shaK.zip ws).foldl shaStep hs
  ⟨add32 hs.a r.a, add32 hs.b r.b, add32 hs.c r.c, add32 hs.d r.d,
    add32 hs.e r.e, add32 hs.f r.f, add32 hs.g r.g, add32 hs.h r.h⟩

def shaH0 : Hash8 :=
  ⟨1779033703, 3144134277, 1013904242, 2773480762,
    1359893119, 2600822924, 528734635, 1541459225⟩

/-- Eight lowercase hex digits of a 32-bit word. -/
def hex8 (n : ℕ) : List Char := hex4 (n / 65536) ++ hex4 (n % 65536)

/-- Embeds `hashlib.sha256(bytes).hexdigest()`. -/
def sha256hex (msg : List ℕ) : String :=
  let r := (toBlocks (padMessage msg)).foldl compressBlock shaH0
  String.mk (hex8 r.a ++ hex8 r.b ++ hex8 r.c ++ hex8 r.d ++
    hex8 r.e ++ hex8 r.f ++ hex8 r.g ++ hex8 r.h)

/-- Python `sorted` on strings (code-point lexicographic). -/
def sortStrings (l : List String) : List String :=
  l.mergeSort fun a b => decide (a ≤ b)

/-- Embeds `crud.build_cache_key`: serialize
`{"params": search_params, "platforms": sorted(platforms)}` with sorted
keys, hash with SHA-256, return the hex digest. -/
def buildCacheKey (searchParams : List (String × Json)) (platforms : List String) :
    String :=
  sha256hex (utf8Encode (dumpJson (Json.obj
    [("params", Json.obj searchParams),
      ("platforms", Json.arr ((sortStrings platforms).map Json.str))])))

/-! ## Claim theorems -/

/-- The running total threaded through the platform loop. -/
theorem runLoop_snd (t : ℕ) (os : List POutcome) (s : JobState) (acc : ℕ) :
    (runLoop t os (s, acc)).2 = acc + scrapeTotal os := by
  induction os generalizing s acc with
  | nil => simp [runLoop, scrapeTotal]
  | cons o rest ih =>
    cases o with
    | skip => simp [runLoop, scrapeTotal, ih]
    | fail => simp [runLoop, scrapeTotal, ih]
    | success ws cnt =>
      simp only [runLoop, ih, scrapeTotal, List.map_cons, List.sum_cons]
      omega

/-- C1: for every run of `_run_scrape_job` in which each platform is either
skipped, fails (its adapter raises), or succeeds with some listings, the job
finishes with status `"completed"`, progress 100 and `total_results` equal
to the sum of the successful platforms' listing counts — adapter exceptions
never produce `"failed"`, and an all-skipped/all-failed run completes with
`total_results = 0` (`scrapeTotal` of such an outcome list is 0). -/
theorem run_scrape_job_always_completes (outcomes : List POutcome)
    (s : JobState) (t0 t1 : ℕ) :
    (runScrapeJob outcomes s t0 t1).status = "completed" ∧
    (runScrapeJob outcomes s t0 t1).progress = 100 ∧
    (runScrapeJob outcomes s t0 t1).total_results = scrapeTotal outcomes := by
  refine ⟨rfl, rfl, ?_⟩
  show (runLoop t0 outcomes (_, 0)).2 = _
  simpa using runLoop_snd t0 outcomes _ 0

/-- C9 counterexample: a second terminal `update_job_status` call re-stamps
`completed_at` (at instant 9) instead of leaving the first stamp (instant 5)
unchanged. -/
theorem update_job_status_restamps_completed_at :
    (updateJobStatus
        (updateJobStatus ⟨"running", 0, 0, none, none⟩ "completed" none none none 5)
        "completed" none none none 9).completed_at ≠
      (updateJobStatus ⟨"running", 0, 0, none, none⟩ "completed" none none none 5).completed_at := by
  decide

/-- Replacing an accumulator along a list keeps the last element's value. -/
theorem foldl_replace_eq_getLast (cs : List JobCall) (init : Option ℕ) :
    cs.foldl (fun _ c => some c.now) init =
      match cs.getLast? with
      | some c => some c.now
      | none => init := by
  induction cs generalizing init with
  | nil => rfl
  | cons c rest ih =>
    rw [List.foldl_cons, ih]
    cases h : rest.getLast? with
    | some d => simp [List.getLast?_cons, List.getLastD_eq_getLast?, h]
    | none => simp [List.getLast?_cons, List.getLastD_eq_getLast?, h]

/-- C9 (amended): `update_job_status` stamps `completed_at := now` on
*every* terminal-status call, not only the first — after any sequence of
calls, `completed_at` holds the timestamp of the **last** terminal call
(and keeps its initial value when no call was terminal; non-terminal calls
never touch it). -/
theorem applyCalls_completed_at (s : JobState) (cs : List JobCall) :
    (applyCalls s cs).completed_at =
      match (cs.filter fun c => isTerminal c.status).getLast? with
      | some c => some c.now
      | none => s.completed_at := by
  rw [← foldl_replace_eq_getLast]
  induction cs generalizing s with
  | nil => rfl
  | cons c rest ih =>
    show (applyCalls (applyCall s c) rest).completed_at = _
    rw [ih]
    cases ht : isTerminal c.status with
    | true =>
      have hc : (applyCall s c).completed_at = some c.now := by
        simp only [isTerminal, Bool.or_eq_true, decide_eq_true_eq] at ht
        simp [applyCall, updateJobStatus, ht]
      simp [List.filter_cons, ht, hc]
    | false =>
      have hc : (applyCall s c).completed_at = s.completed_at := by
        simp only [isTerminal, Bool.or_eq_false_iff, decide_eq_false_iff_not] at ht
        simp [applyCall, updateJobStatus, ht.1, ht.2]
      simp [List.filter_cons, ht, hc]

/-- C4 counterexample: with two unexpired rows sharing a fingerprint,
`get_cached_job`'s `scalar_one_or_none()` raises `MultipleResultsFound`
instead of returning one of the job ids. -/
theorem get_cached_job_multiple_rows_errors :
    getCachedJob [⟨"k", 1, 10⟩, ⟨"k", 2, 10⟩] "k" 0 =
      .error .multipleResultsFound := by
  rfl

/-- C4 (amended): when at most one row matches the fingerprint unexpired —
the situation the `unique=True` column makes invariant — `get_cached_job`
returns exactly the matching unexpired row's job id, returns `none` when no
unexpired row matches, and never returns an expired entry; with several
matching rows it raises `MultipleResultsFound` (see the counterexample)
rather than picking one. -/
theorem get_cached_job_unique_lookup (rows : List CacheRow) (key : String)
    (now : ℕ) (h : (cacheMatches rows key now).length ≤ 1) :
    (∀ j, getCachedJob rows key now = .ok (some j) →
      ∃ r ∈ rows, r.cache_key = key ∧ now < r.expires_at ∧ r.job_id = j) ∧
    ((∃ r ∈ rows, r.cache_key = key ∧ now < r.expires_at) →
      ∃ j, getCachedJob rows key now = .ok (some j)) ∧
    ((¬ ∃ r ∈ rows, r.cache_key = key ∧ now < r.expires_at) →
      getCachedJob rows key now = .ok none) := by
  have hmem : ∀ r : CacheRow, r ∈ cacheMatches rows key now ↔
      r ∈ rows ∧ (r.cache_key = key ∧ now < r.expires_at) := by
    intro r
    simp [cacheMatches, List.mem_filter]
  match hm : cacheMatches rows key now with
  | [] =>
    refine ⟨fun j hj => ?_, fun hex => ?_, fun _ => ?_⟩
    · simp [getCachedJob, hm] at hj
    · obtain ⟨r, hr, hk, he⟩ := hex
      have : r ∈ cacheMatches rows key now := (hmem r).2 ⟨hr, hk, he⟩
      simp [hm] at this
    · simp [getCachedJob, hm]
  | [r] =>
    have hr : r ∈ rows ∧ (r.cache_key = key ∧ now < r.expires_at) :=
      (hmem r).1 (by simp [hm])
    refine ⟨fun j hj => ?_, fun _ => ?_, fun hne => ?_⟩
    · simp only [getCachedJob, hm, Except.ok.injEq, Option.some.injEq] at hj
      exact ⟨r, hr.1, hr.2.1, hr.2.2, hj⟩
    · exact ⟨r.job_id, by simp [getCachedJob, hm]⟩
    · exact absurd ⟨r, hr.1, hr.2⟩ hne
  | r1 :: r2 :: rest =>
    rw [hm] at h
    simp at h

/-- Witness for C4 (amended): a single-row cache at a pre-expiry instant. -/
theorem get_cached_job_unique_lookup_witness :
    (cacheMatches [⟨"k", 7, 10⟩] "k" 3).length ≤ 1 ∧
    (∃ j, getCachedJob [⟨"k", 7, 10⟩] "k" 3 = .ok (some j)) :=
  ⟨by decide,
    (get_cached_job_unique_lookup [⟨"k", 7, 10⟩] "k" 3 (by decide)).2.1
      ⟨⟨"k", 7, 10⟩, by decide⟩⟩

/-- C5 counterexample: storing a fingerprint that already has a cache row
fails the commit with a uniqueness violation (`cache_key` is declared
`unique=True`), instead of adding a second row. -/
theorem set_cache_duplicate_key_errors :
    setCache [⟨"k", 1, 6⟩] "k" 2 0 = .error .integrityError := by
  rfl

/-- C5 (amended): `set_cache` always attempts a plain insert of a fresh row
with `expires_at = now + CACHE_TTL_HOURS` (no upsert, no overwrite); on a
table whose keys are distinct the insert succeeds exactly when the
fingerprint is new, and a duplicate fingerprint makes the commit fail with
`IntegrityError` — a second row for the same fingerprint is never stored. -/
theorem set_cache_insert_spec (rows : List CacheRow) (key : String)
    (jobId now : ℕ) (h : (rows.map CacheRow.cache_key).Nodup) :
    (key ∉ rows.map CacheRow.cache_key →
      setCache rows key jobId now =
        .ok (rows ++ [⟨key, jobId, now + CACHE_TTL_HOURS⟩])) ∧
    (key ∈ rows.map CacheRow.cache_key →
      setCache rows key jobId now = .error .integrityError) := by
  constructor
  · intro hk
    simp [setCache, cacheCommit, List.nodup_append, h, hk]
  · intro hk
    have hnd : ¬ ((rows.map CacheRow.cache_key) ++ [key]).Nodup := by
      rw [List.nodup_append]
      rintro ⟨-, -, hdisj⟩
      exact hdisj hk (by simp)
    simp [setCache, cacheCommit, List.map_append, hnd]

/-- Witness for C5 (amended): inserting a fresh fingerprint into a
one-row table succeeds and appends the TTL-stamped row. -/
theorem set_cache_insert_spec_witness :
    (([⟨"a", 1, 6⟩] : List CacheRow).map CacheRow.cache_key).Nodup ∧
    "b" ∉ ([⟨"a", 1, 6⟩] : List CacheRow).map CacheRow.cache_key ∧
    setCache [⟨"a", 1, 6⟩] "b" 2 0 = .ok [⟨"a", 1, 6⟩, ⟨"b", 2, 6⟩] :=
  ⟨by decide, by decide,
    (set_cache_insert_spec [⟨"a", 1, 6⟩] "b" 2 0 (by decide)).1 (by decide)⟩

/-- Sorting is invariant under permutation of the input. -/
theorem sortStrings_perm_eq {l1 l2 : List String} (h : l1.Perm l2) :
    sortStrings l1 = sortStrings l2 := by
  apply List.eq_of_perm_of_sorted (r := fun a b : String => a ≤ b)
  · exact ((List.mergeSort_perm l1 _).trans h).trans (List.mergeSort_perm l2 _).symm
  · exact List.sorted_mergeSort' l1
  · exact List.sorted_mergeSort' l2

/-- C3: `build_cache_key` gives the same SHA-256 hex fingerprint for any two
platform lists that are permutations of each other (platforms are sorted
before serialization; object keys are sorted by `sort_keys=True`; array
values — in particular parameter values — are never reordered by
`dumpJson`). -/
theorem build_cache_key_platform_perm (params : List (String × Json))
    (P1 P2 : List String) (h : P1.Perm P2) :
    buildCacheKey params P1 = buildCacheKey params P2 := by
  unfold buildCacheKey
  rw [sortStrings_perm_eq h]

/-- Witness for C3: `["carsandbids", "bat"]` and `["bat", "carsandbids"]`
fingerprint identically. -/
theorem build_cache_key_platform_perm_witness :
    (["carsandbids", "bat"] : List String).Perm ["bat", "carsandbids"] ∧
    buildCacheKey [("make", Json.str "BMW")] ["carsandbids", "bat"] =
      buildCacheKey [("make", Json.str "BMW")] ["bat", "carsandbids"] :=
  ⟨by decide, build_cache_key_platform_perm _ _ _ (by decide)⟩

/-- C6 counterexample: a BaT card with *no* result text (`.item-results`
absent) but a `.bid-label` reading `"Sold for"` is marked sold — the claim
says a listing is sold *exactly* when its result text carries a sold token,
and that absent result text defaults to not sold. -/
theorem bat_marks_sold_without_result_text :
    (batParseCard ⟨"1972 Datsun 240Z".toList, some "$20,500".toList,
        some "Sold for".toList, none, false, "/listing/x".toList, none⟩).is_sold = true ∧
    (⟨"1972 Datsun 240Z".toList, some "$20,500".toList, some "Sold for".toList,
        none, false, "/listing/x".toList, none⟩ : BatCard).resultText = none := by
  decide

/-- C6 (amended): a BaT listing is marked sold iff its result text contains
`"sold"` and not `"not sold"`, **or** its bid label contains `"sold"`; when
the result text is absent and the bid label carries no `"sold"` token the
listing defaults to not sold, with `sold_price` null and `starting_bid`
carrying the parsed bid amount (itself null when no amount parsed). -/
theorem bat_sold_flag_spec (c : BatCard) :
    ((batParseCard c).is_sold =
      ((containsSub "sold".toList (toLowerL (c.resultText.getD [])) &&
          !containsSub "not sold".toList (toLowerL (c.resultText.getD []))) ||
        containsSub "sold".toList (toLowerL (c.bidLabel.getD [])))) ∧
    (c.resultText = none →
      containsSub "sold".toList (toLowerL (c.bidLabel.getD [])) = false →
      (batParseCard c).is_sold = false ∧ (batParseCard c).sold_price = none ∧
        (batParseCard c).starting_bid = batCardPrice c) := by
  constructor
  · simp only [batParseCard]
    unfold batSoldFlag
    cases h1 : containsSub "sold".toList (toLowerL (c.resultText.getD [])) <;>
      cases h2 : containsSub "not sold".toList (toLowerL (c.resultText.getD [])) <;>
        cases h3 : containsSub "sold".toList (toLowerL (c.bidLabel.getD [])) <;>
          simp [h1, h2, h3]
  · intro h1 h2
    have h2a : containsSub ['s', 'o', 'l', 'd'] (toLowerL (c.bidLabel.getD [])) = false := h2
    have e1 : containsSub ['s', 'o', 'l', 'd'] (toLowerL ([] : List Char)) = false := by
      decide
    have hsold : batSoldFlag (toLowerL ([] : List Char))
        (toLowerL (c.bidLabel.getD [])) = false := by
      unfold batSoldFlag
      simp [e1, h2a]
    simp [batParseCard, h1, hsold]

/-- Witness for C6 (amended): a card with neither result text nor bid label
is parsed as not sold with both price fields following the (absent) bid. -/
theorem bat_sold_flag_spec_witness :
    ((⟨"t".toList, none, none, none, false, [], none⟩ : BatCard).resultText = none) ∧
    (containsSub "sold".toList
      (toLowerL ((⟨"t".toList, none, none, none, false, [], none⟩ : BatCard).bidLabel.getD [])) = false) ∧
    ((batParseCard ⟨"t".toList, none, none, none, false, [], none⟩).is_sold = false ∧
      (batParseCard ⟨"t".toList, none, none, none, false, [], none⟩).sold_price = none ∧
      (batParseCard ⟨"t".toList, none, none, none, false, [], none⟩).starting_bid =
        batCardPrice ⟨"t".toList, none, none, none, false, [], none⟩) :=
  ⟨rfl, by decide, (bat_sold_flag_spec _).2 rfl (by decide)⟩

/-- C2 counterexample: a BaT card whose result text says sold but whose
price element is absent yields `is_sold = true` with **both** `sold_price`
and `starting_bid` null — the claimed "exactly one non-null" invariant
fails. -/
theorem bat_card_without_price_nulls_both :
    (batParseCard ⟨"1990 Mazda MX-5 Miata".toList, none, none,
        some "Sold for $12,000".toList, false, [], none⟩).is_sold = true ∧
    (batParseCard ⟨"1990 Mazda MX-5 Miata".toList, none, none,
        some "Sold for $12,000".toList, false, [], none⟩).sold_price = none ∧
    (batParseCard ⟨"1990 Mazda MX-5 Miata".toList, none, none,
        some "Sold for $12,000".toList, false, [], none⟩).starting_bid = none := by
  decide

/-- Case split on the sold flag for the two price slots. -/
theorem exclusive_slots (b : Bool) (p : Option ℚ) :
    (if b then p else none) = cond b p none ∧
    (if b then none else p) = cond b none p ∧
    ((if b then p else none) = none ∨ (if b then none else p) = none) := by
  cases b <;> simp

/-- C2 (amended): in both auction parsers **at most** one of
`sold_price`/`starting_bid` is non-null and the populated slot is the one
selected by `is_sold` (sold → the parsed price goes to `sold_price`,
`starting_bid` null; unsold → vice versa); both slots are null exactly when
the card/item carries no parsable price, so "exactly one" fails only in
that case (see the counterexample). -/
theorem parsers_price_exclusive (c : BatCard) (it : CnbItem) :
    ((batParseCard c).sold_price = cond (batParseCard c).is_sold (batCardPrice c) none ∧
      (batParseCard c).starting_bid = cond (batParseCard c).is_sold none (batCardPrice c) ∧
      ((batParseCard c).sold_price = none ∨ (batParseCard c).starting_bid = none)) ∧
    ((cnbParseApiListing it).sold_price =
        cond (cnbParseApiListing it).is_sold (cnbRawPrice it) none ∧
      (cnbParseApiListing it).starting_bid =
        cond (cnbParseApiListing it).is_sold none (cnbRawPrice it) ∧
      ((cnbParseApiListing it).sold_price = none ∨
        (cnbParseApiListing it).starting_bid = none)) := by
  constructor
  · simp only [batParseCard]
    exact exclusive_slots _ _
  · simp only [cnbParseApiListing, cnbRawPrice]
    cases hraw : pyOr (pyOr it.sold_price it.price) it.currentBid with
    | none => exact exclusive_slots _ _
    | some v =>
      cases v with
      | str s => exact exclusive_slots _ _
      | num q => exact exclusive_slots _ _

/-- The comparison result's mean and delta fields as functions of the two
mean values. -/
theorem ccs_fields (usa de : List UsedCarRow) (rate : ℚ) :
    (computeComparisonStats usa de rate).usa.mean_price = usaMeanPrice usa ∧
    (computeComparisonStats usa de rate).germany.mean_price_usd =
      deMeanPriceUsd de rate ∧
    (computeComparisonStats usa de rate).price_delta_usd =
      (match usaMeanPrice usa, deMeanPriceUsd de rate with
        | some u, some g => some (pyRound (u - g) 2)
        | _, _ => none) ∧
    (computeComparisonStats usa de rate).price_delta_pct =
      (match usaMeanPrice usa, deMeanPriceUsd de rate with
        | some u, some g =>
          some (if g ≠ 0 then pyRound (pyRound (u - g) 2 / g * 100) 1 else 0)
        | _, _ => none) ∧
    (computeComparisonStats usa de rate).arbitrage_direction =
      (match usaMeanPrice usa, deMeanPriceUsd de rate with
        | some u, some g =>
          some (if 0 < pyRound (u - g) 2 then "Buy in Germany" else "Buy in USA")
        | _, _ => none) := by
  simp only [computeComparisonStats]
  cases usaMeanPrice usa <;> cases deMeanPriceUsd de rate <;>
    exact ⟨rfl, rfl, rfl, rfl, rfl⟩

/-- C7: when both the USA mean price and the Germany mean price in USD are
present, `compute_comparison_stats` reports
`price_delta_usd = round(usaMean - germanyMeanUsd, 2)`,
`price_delta_pct = round(delta / germanyMeanUsd * 100, 1)` (the code's
`g = 0` guard coincides with rational division by zero) and
`arbitrage_direction = "Buy in Germany"` exactly when the delta is positive,
else `"Buy in USA"`; when either mean is missing all three fields are null.
Concretely, USA mean 30000 USD and Germany mean 25000 EUR at rate 1.08
(27/25) give `price_delta_usd = 3000` and direction `"Buy in Germany"`. -/
theorem compute_comparison_stats_delta (usa de : List UsedCarRow) (rate : ℚ) :
    ((∀ u g, (computeComparisonStats usa de rate).usa.mean_price = some u →
      (computeComparisonStats usa de rate).germany.mean_price_usd = some g →
      (computeComparisonStats usa de rate).price_delta_usd = some (pyRound (u - g) 2) ∧
      (computeComparisonStats usa de rate).price_delta_pct =
        some (pyRound (pyRound (u - g) 2 / g * 100) 1) ∧
      (computeComparisonStats usa de rate).arbitrage_direction =
        some (if 0 < pyRound (u - g) 2 then "Buy in Germany" else "Buy in USA")) ∧
    (((computeComparisonStats usa de rate).usa.mean_price = none ∨
        (computeComparisonStats usa de rate).germany.mean_price_usd = none) →
      (computeComparisonStats usa de rate).price_delta_usd = none ∧
      (computeComparisonStats usa de rate).price_delta_pct = none ∧
      (computeComparisonStats usa de rate).arbitrage_direction = none)) ∧
    ((computeComparisonStats [⟨some 30000, none⟩] [⟨some 25000, none⟩]
        (27/25)).price_delta_usd = some 3000 ∧
      (computeComparisonStats [⟨some 30000, none⟩] [⟨some 25000, none⟩]
        (27/25)).arbitrage_direction = some "Buy in Germany") := by
  obtain ⟨hum, hgm, hd, hp, ha⟩ := ccs_fields usa de rate
  constructor
  · constructor
    · intro u g hu hg
      rw [hum] at hu
      rw [hgm] at hg
      rw [hd, hp, ha, hu, hg]
      refine ⟨rfl, ?_, rfl⟩
      by_cases hz : g = 0
      · subst hz
        norm_num [pyRound, halfEven]
      · simp [hz]
    · intro hor
      rw [hum, hgm] at hor
      rw [hd, hp, ha]
      rcases hor with hn | hn
      · rw [hn]
        cases deMeanPriceUsd de rate <;> exact ⟨rfl, rfl, rfl⟩
      · rw [hn]
        cases usaMeanPrice usa <;> exact ⟨rfl, rfl, rfl⟩
  · have h30 : usaMeanPrice [⟨some 30000, none⟩] = some 30000 := by
      simp only [usaMeanPrice, List.filterMap_cons, List.filterMap_nil]
      norm_num [pyRound, halfEven]
    have h27 : deMeanPriceUsd [⟨some 25000, none⟩] (27/25) = some 27000 := by
      simp only [deMeanPriceUsd, List.filterMap_cons, List.filterMap_nil]
      norm_num [pyRound, halfEven]
    obtain ⟨-, -, hd2, -, ha2⟩ :=
      ccs_fields [⟨some 30000, none⟩] [⟨some 25000, none⟩] (27/25)
    rw [hd2, ha2, h30, h27]
    constructor
    · norm_num [pyRound, halfEven]
    · norm_num [pyRound, halfEven]

/-- Witness for C7: the spec's concrete scenario, applied through the
theorem's first conjunct. -/
theorem compute_comparison_stats_delta_witness :
    (computeComparisonStats [⟨some 30000, none⟩] [⟨some 25000, none⟩]
        (27/25)).usa.mean_price = some 30000 ∧
    (computeComparisonStats [⟨some 30000, none⟩] [⟨some 25000, none⟩]
        (27/25)).germany.mean_price_usd = some 27000 ∧
    (computeComparisonStats [⟨some 30000, none⟩] [⟨some 25000, none⟩]
        (27/25)).price_delta_usd = some (pyRound ((30000 : ℚ) - 27000) 2) := by
  obtain ⟨hum, hgm, -, -, -⟩ :=
    ccs_fields [⟨some 30000, none⟩] [⟨some 25000, none⟩] (27/25)
  have h30 : usaMeanPrice [⟨some 30000, none⟩] = some 30000 := by
    simp only [usaMeanPrice, List.filterMap_cons, List.filterMap_nil]
    norm_num [pyRound, halfEven]
  have h27 : deMeanPriceUsd [⟨some 25000, none⟩] (27/25) = some 27000 := by
    simp only [deMeanPriceUsd, List.filterMap_cons, List.filterMap_nil]
    norm_num [pyRound, halfEven]
  have h1 : (computeComparisonStats [⟨some 30000, none⟩] [⟨some 25000, none⟩]
      (27/25)).usa.mean_price = some 30000 := by rw [hum, h30]
  have h2 : (computeComparisonStats [⟨some 30000, none⟩] [⟨some 25000, none⟩]
      (27/25)).germany.mean_price_usd = some 27000 := by rw [hgm, h27]
  exact ⟨h1, h2,
    ((compute_comparison_stats_delta [⟨some 30000, none⟩] [⟨some 25000, none⟩]
      (27/25)).1.1 30000 27000 h1 h2).1⟩

/-- C10: `compute_auction_stats` counts a listing flagged `is_sold` with a
null (or zero, i.e. falsy) `sold_price` in neither `total_sold` (the
sell-through numerator) nor `total_unsold`; so on an input consisting of one
such listing, `total_sold + total_unsold < total_listings` and the reported
`sell_through_rate` (0) is lower than the 100 percent of listings flagged
`is_sold`. -/
theorem auction_stats_sold_needs_price :
    (∀ (ls : List AuctionListingRow) (l : AuctionListingRow), l ∈ ls →
      l.is_sold = true → qTruthy l.sold_price = false →
      l ∉ soldRows ls ∧ l ∉ unsoldRows ls) ∧
    (∀ s, computeAuctionStats [⟨true, none, none, none, none⟩] = some s →
      s.total_sold + s.total_unsold < s.total_listings ∧
      s.sell_through_rate < 100) := by
  constructor
  · intro ls l _ hsold htr
    constructor
    · intro hin
      have hp := (List.mem_filter.1 hin).2
      rw [soldRows] at hin
      simp only [hsold, htr, Bool.and_false] at hp
      exact absurd hp (by simp)
    · intro hin
      have hp := (List.mem_filter.1 hin).2
      simp only [hsold] at hp
      exact absurd hp (by simp)
  · intro s hs
    have heval : computeAuctionStats [⟨true, none, none, none, none⟩] =
        some ⟨1, 0, 0, 0, none, none, none, none⟩ := by
      simp only [computeAuctionStats, soldRows, unsoldRows, qTruthy]
      norm_num [List.filter, qMin, qMax, pyRound, halfEven]
    rw [heval] at hs
    obtain rfl : s = ⟨1, 0, 0, 0, none, none, none, none⟩ := by
      simpa using hs.symm
    refine ⟨by norm_num, by norm_num⟩

/-- Witness for C10: the one-listing input flagged sold without a price,
through both conjuncts of the theorem. -/
theorem auction_stats_sold_needs_price_witness :
    ((⟨true, none, none, none, none⟩ : AuctionListingRow) ∈
        [(⟨true, none, none, none, none⟩ : AuctionListingRow)]) ∧
    ((⟨true, none, none, none, none⟩ : AuctionListingRow) ∉
        soldRows [⟨true, none, none, none, none⟩] ∧
      (⟨true, none, none, none, none⟩ : AuctionListingRow) ∉
        unsoldRows [⟨true, none, none, none, none⟩]) ∧
    ((⟨1, 0, 0, 0, none, none, none, none⟩ : AuctionStats).total_sold +
        (⟨1, 0, 0, 0, none, none, none, none⟩ : AuctionStats).total_unsold <
        (⟨1, 0, 0, 0, none, none, none, none⟩ : AuctionStats).total_listings ∧
      (⟨1, 0, 0, 0, none, none, none, none⟩ : AuctionStats).sell_through_rate < 100) :=
  ⟨by decide,
    auction_stats_sold_needs_price.1 _ _ (by decide) rfl (by decide),
    auction_stats_sold_needs_price.2 ⟨1, 0, 0, 0, none, none, none, none⟩ (by
      simp only [computeAuctionStats, soldRows, unsoldRows, qTruthy]
      norm_num [List.filter, qMin, qMax, pyRound, halfEven])⟩

/-- Within one platform, the written percentage is monotone in the reported
page number. -/
theorem progressPct_mono_page {n i m p q : ℕ} (h : p ≤ q) :
    progressPct n i m p ≤ progressPct n i m q := by
  unfold progressPct
  exact min_le_min
    (Nat.add_le_add_left (Nat.div_le_div_right (Nat.mul_le_mul_right _ h)) _) le_rfl

/-- A platform's writes never exceed the (capped) base offset of the next
platform index. -/
theorem progressPct_upper {n i m p : ℕ} (hp : p ≤ m) :
    progressPct n i m p ≤ min ((i + 1) * 100 / n) 95 := by
  unfold progressPct
  apply min_le_min _ le_rfl
  have h1 : p * (100 / n) / m ≤ 100 / n :=
    Nat.div_le_of_le_mul (Nat.mul_le_mul_right _ hp)
  calc i * 100 / n + p * (100 / n) / m
      ≤ i * 100 / n + 100 / n := Nat.add_le_add_left h1 _
    _ ≤ (i * 100 + 100) / n := Nat.add_div_le_add_div _ _ _
    _ = (i + 1) * 100 / n := by rw [Nat.add_mul, Nat.one_mul]

/-- A platform's writes stay at or above its own (capped) base offset. -/
theorem progressPct_lower {n i m p : ℕ} :
    min (i * 100 / n) 95 ≤ progressPct n i m p := by
  unfold progressPct
  exact min_le_min (Nat.le_add_right _ _) le_rfl

/-- The base offset is monotone in the platform index. -/
theorem baseOffset_mono {n i j : ℕ} (h : i ≤ j) : i * 100 / n ≤ j * 100 / n :=
  Nat.div_le_div_right (Nat.mul_le_mul_right _ h)

/-- C8: over one job's lifetime the written progress values are
non-decreasing, from the reset to 0 at job start to the terminal 100:
provided the platform slices appear in increasing index order and each
platform reports non-decreasing page numbers bounded by its `max_pages`
(as both scrapers do), the full write sequence is a `≤`-chain ending in
100.  (`int(...)` float truncations are modelled as exact `ℕ` floor
divisions.) -/
theorem job_progress_monotone (n : ℕ) (runs : List PlatformRun)
    (hidx : (runs.map PlatformRun.idx).Chain' (· < ·))
    (hpages : ∀ r ∈ runs, r.pages.Chain' (· ≤ ·))
    (hbound : ∀ r ∈ runs, ∀ p ∈ r.pages, p ≤ r.maxp) :
    (jobProgressWrites n runs).Chain' (· ≤ ·) ∧
    (jobProgressWrites n runs).getLast? = some 100 := by
  have hmem95 : ∀ x ∈ runs.flatMap (platformWrites n), x ≤ 95 := by
    intro x hx
    rw [List.mem_flatMap] at hx
    obtain ⟨r, _, hxr⟩ := hx
    rw [platformWrites, List.mem_map] at hxr
    obtain ⟨p, _, rfl⟩ := hxr
    exact min_le_right _ _
  constructor
  · rw [List.chain'_iff_pairwise]
    unfold jobProgressWrites
    rw [List.pairwise_cons]
    refine ⟨fun b _ => Nat.zero_le b, ?_⟩
    rw [List.pairwise_append]
    refine ⟨?_, List.pairwise_singleton _ _, ?_⟩
    · rw [List.flatMap_def, List.pairwise_flatten]
      constructor
      · intro l hl
        rw [List.mem_map] at hl
        obtain ⟨r, hr, rfl⟩ := hl
        have hpw : r.pages.Pairwise (· ≤ ·) :=
          (List.chain'_iff_pairwise).1 (hpages r hr)
        exact hpw.map _ fun a b hab => progressPct_mono_page hab
      · rw [List.pairwise_map]
        have hidx2 : runs.Pairwise fun r r2 => r.idx < r2.idx := by
          haveI : IsTrans PlatformRun fun a b => a.idx < b.idx :=
            ⟨fun a b c h1 h2 => h1.trans h2⟩
          rw [List.chain'_map] at hidx
          exact (List.chain'_iff_pairwise).1 hidx
        refine List.Pairwise.imp_of_mem ?_ hidx2
        intro r r2 hr _ hlt x hx y hy
        rw [platformWrites, List.mem_map] at hx hy
        obtain ⟨p, hp, rfl⟩ := hx
        obtain ⟨q, hq, rfl⟩ := hy
        calc progressPct n r.idx r.maxp p
            ≤ min ((r.idx + 1) * 100 / n) 95 := progressPct_upper (hbound r hr p hp)
          _ ≤ min (r2.idx * 100 / n) 95 := min_le_min (baseOffset_mono hlt) le_rfl
          _ ≤ progressPct n r2.idx r2.maxp q := progressPct_lower
    · intro x hx y hy
      rw [List.mem_singleton] at hy
      subst hy
      exact (hmem95 x hx).trans (by norm_num)
  · show ((0 :: runs.flatMap (platformWrites n)) ++ [100]).getLast? = some 100
    exact List.getLast?_concat _

/-- Witness for C8: two platform slices (indices 0 and 2 of a three-platform
job, the middle platform skipped) with increasing in-range pages. -/
theorem job_progress_monotone_witness :
    ((([⟨0, 10, [1, 2, 10]⟩, ⟨2, 10, [2, 3]⟩] : List PlatformRun).map
        PlatformRun.idx).Chain' (· < ·) ∧
      (∀ r ∈ ([⟨0, 10, [1, 2, 10]⟩, ⟨2, 10, [2, 3]⟩] : List PlatformRun),
        r.pages.Chain' (· ≤ ·)) ∧
      (∀ r ∈ ([⟨0, 10, [1, 2, 10]⟩, ⟨2, 10, [2, 3]⟩] : List PlatformRun),
        ∀ p ∈ r.pages, p ≤ r.maxp)) ∧
    ((jobProgressWrites 3 [⟨0, 10, [1, 2, 10]⟩, ⟨2, 10, [2, 3]⟩]).Chain' (· ≤ ·) ∧
      (jobProgressWrites 3 [⟨0, 10, [1, 2, 10]⟩, ⟨2, 10, [2, 3]⟩]).getLast? =
        some 100) := by
  have h1 : (([⟨0, 10, [1, 2, 10]⟩, ⟨2, 10, [2, 3]⟩] : List PlatformRun).map
      PlatformRun.idx).Chain' (· < ·) := by
    simp [List.chain'_cons]
  have h2 : ∀ r ∈ ([⟨0, 10, [1, 2, 10]⟩, ⟨2, 10, [2, 3]⟩] : List PlatformRun),
      r.pages.Chain' (· ≤ ·) := by
    intro r hr
    fin_cases hr <;> simp [List.chain'_cons]
  have h3 : ∀ r ∈ ([⟨0, 10, [1, 2, 10]⟩, ⟨2, 10, [2, 3]⟩] : List PlatformRun),
      ∀ p ∈ r.pages, p ≤ r.maxp := by
    decide
  exact ⟨⟨h1, h2, h3⟩, job_progress_monotone 3 _ h1 h2 h3⟩

end CarScraper
